import Mathlib

/-
Verification of the free-slot finder (`calendar_find_free`) of the
calendar tool server.  The scan in the source reads, for busy intervals
`b`, window bounds `timeMin`/`timeMax` and a duration in milliseconds:

    let cursor = new Date(timeMin).getTime();
    const endWin = new Date(timeMax).getTime();
    const durMs = durationMinutes * 60 * 1000;
    for (const b of busy) {
      const bStart = new Date(b.start).getTime();
      if (bStart - cursor >= durMs) return { slotStart: cursor, slotEnd: cursor + durMs };
      const bEnd = new Date(b.end).getTime();
      cursor = Math.max(cursor, bEnd);
    }
    if (endWin - cursor >= durMs) return { slotStart: cursor, slotEnd: cursor + durMs };
    return { slotStart: null, slotEnd: null };

Timestamps are modelled as integers (epoch milliseconds after
`Date.getTime()`); the "not found" return with null bounds is `none`.
-/

/-- A busy interval as delivered by the free/busy query, with both bounds
already converted to epoch milliseconds.  The source field `end` is a Lean
keyword and is rendered `end_`. -/
structure BusyInterval where
  start : Int
  end_ : Int
deriving DecidableEq, Repr

/-- The caller-supplied search window: `timeMin` and `timeMax` of the
source, in epoch milliseconds. -/
structure SearchWindow where
  windowStart : Int
  windowEnd : Int
deriving DecidableEq, Repr

/-- A found slot, the non-null success payload `{slotStart, slotEnd}`. -/
structure FreeSlot where
  slotStart : Int
  slotEnd : Int
deriving DecidableEq, Repr

/-- The loop of `calendar_find_free`, one constructor case per iteration:
if `bStart - cursor >= durMs` return the slot at the cursor, otherwise
advance the cursor to `max cursor bEnd` and continue; after the loop
return the tail slot iff `endWin - cursor >= durMs`. -/
def findFreeSlotAux (durMs endWin : Int) : List BusyInterval → Int → Option FreeSlot
  | [], cursor =>
      if endWin - cursor ≥ durMs then some ⟨cursor, cursor + durMs⟩ else none
  | b :: rest, cursor =>
      if b.start - cursor ≥ durMs then some ⟨cursor, cursor + durMs⟩
      else findFreeSlotAux durMs endWin rest (max cursor b.end_)

/-- The free-slot scan with the cursor initialised at `windowStart`, the
duration already in the timestamp unit. -/
def findFreeSlot (busy : List BusyInterval) (w : SearchWindow) (durMs : Int) : Option FreeSlot :=
  findFreeSlotAux durMs w.windowEnd busy w.windowStart

/-- The `calendar_find_free` entry point: converts `durationMinutes` to
milliseconds (`durationMinutes * 60 * 1000`) and runs the scan over the
window `[timeMin, timeMax]`. -/
def calendar_find_free (busy : List BusyInterval) (timeMin timeMax durationMinutes : Int) :
    Option FreeSlot :=
  findFreeSlot busy ⟨timeMin, timeMax⟩ (durationMinutes * 60 * 1000)

/-- The scan as the specification words it, written independently of the
source: the cursor starts at `windowStart`; for each busy interval in
order, if the gap between the cursor and the interval's start is at least
`duration`, return `{cursor, cursor + duration}`; otherwise advance the
cursor to `max(cursor, interval.end)`; after exhausting the intervals,
return the remaining gap iff `windowEnd - cursor >= duration`, else "not
found". -/
def specScanBusy (duration windowEnd : Int) (cursor : Int) : List BusyInterval → Option FreeSlot
  | [] =>
      if windowEnd - cursor ≥ duration then some ⟨cursor, cursor + duration⟩ else none
  | b :: rest =>
      if b.start - cursor ≥ duration then some ⟨cursor, cursor + duration⟩
      else specScanBusy duration windowEnd (max cursor b.end_) rest

/-- The specification's contract `findFreeSlot(busy, window, duration)`,
assembled from `specScanBusy` with the cursor initialised at
`windowStart`. -/
def specFindFreeSlot (busy : List BusyInterval) (w : SearchWindow) (duration : Int) :
    Option FreeSlot :=
  specScanBusy duration w.windowEnd w.windowStart busy

theorem findFreeSlotAux_eq_specScanBusy (durMs endWin : Int) :
    ∀ (busy : List BusyInterval) (cursor : Int),
      findFreeSlotAux durMs endWin busy cursor = specScanBusy durMs endWin cursor busy := by
  intro busy
  induction busy with
  | nil => intro cursor; rfl
  | cons b rest ih =>
      intro cursor
      simp only [findFreeSlotAux, specScanBusy]
      split
      · rfl
      · exact ih (max cursor b.end_)

/-- Claim C1: the code computes its result exactly by the single forward
pass the specification describes: cursor at `windowStart`; per interval,
return `{cursor, cursor + duration}` when `interval.start - cursor ≥
duration`, else `cursor := max(cursor, interval.end)`; afterwards return
the tail gap iff `windowEnd - cursor ≥ duration`, else "not found". -/
theorem findFreeSlot_eq_specFindFreeSlot :
    ∀ (busy : List BusyInterval) (w : SearchWindow) (duration : Int),
      findFreeSlot busy w duration = specFindFreeSlot busy w duration := by
  intro busy w duration
  exact findFreeSlotAux_eq_specScanBusy duration w.windowEnd busy w.windowStart

/-- Claim C7: on the empty busy list the scan returns the slot
`{windowStart, windowStart + duration}` when `windowEnd - windowStart ≥
duration` and "not found" otherwise. -/
theorem findFreeSlot_nil_eq :
    ∀ (w : SearchWindow) (duration : Int),
      findFreeSlot [] w duration =
        if w.windowEnd - w.windowStart ≥ duration then
          some ⟨w.windowStart, w.windowStart + duration⟩
        else none := by
  intro w duration
  rfl

/-- Claim C8: the three concrete scenarios of the specification, with
minute offsets scaled to epoch milliseconds exactly as the source does
(`durationMinutes * 60 * 1000`): window `[0, 120]` minutes, duration 30
minutes; busy `[60,90]` gives slot `[0,30]`; busy `[0,90]` gives slot
`[90,120]`; busy `[0,100]` gives "not found". -/
theorem calendar_find_free_scenarios :
    calendar_find_free [⟨3600000, 5400000⟩] 0 7200000 30 = some ⟨0, 1800000⟩ ∧
    calendar_find_free [⟨0, 5400000⟩] 0 7200000 30 = some ⟨5400000, 7200000⟩ ∧
    calendar_find_free [⟨0, 6000000⟩] 0 7200000 30 = none := by
  refine ⟨?_, ?_, ?_⟩ <;> decide

/-- Interval `b` does not collide with the candidate slot `[t, t + duration]`:
the slot ends before the busy time starts, or starts after it ends. -/
def RespectsBusy (b : BusyInterval) (t duration : Int) : Prop :=
  t + duration ≤ b.start ∨ b.end_ ≤ t

instance (b : BusyInterval) (t duration : Int) : Decidable (RespectsBusy b t duration) :=
  inferInstanceAs (Decidable (_ ∨ _))

/-- `t` starts a valid gap: a duration-length slot at `t` lies inside the
window and collides with no busy interval of the list. -/
def ValidGapStart (busy : List BusyInterval) (w : SearchWindow) (duration t : Int) : Prop :=
  w.windowStart ≤ t ∧ t + duration ≤ w.windowEnd ∧ ∀ b ∈ busy, RespectsBusy b t duration

instance (busy : List BusyInterval) (w : SearchWindow) (duration t : Int) :
    Decidable (ValidGapStart busy w duration t) :=
  inferInstanceAs (Decidable (_ ∧ _ ∧ ∀ b ∈ busy, RespectsBusy b t duration))

theorem findFreeSlotAux_cursor_le_slotStart (durMs endWin : Int) :
    ∀ (busy : List BusyInterval) (cursor : Int) (s : FreeSlot),
      findFreeSlotAux durMs endWin busy cursor = some s → cursor ≤ s.slotStart := by
  intro busy
  induction busy with
  | nil =>
      intro cursor s h
      simp only [findFreeSlotAux] at h
      split at h
      · obtain rfl := Option.some.inj h
        exact le_refl cursor
      · exact Option.noConfusion h
  | cons b rest ih =>
      intro cursor s h
      simp only [findFreeSlotAux] at h
      split at h
      · obtain rfl := Option.some.inj h
        exact le_refl cursor
      · exact le_trans (le_max_left cursor b.end_) (ih (max cursor b.end_) s h)

theorem findFreeSlotAux_first_fit (durMs endWin : Int) :
    ∀ (busy : List BusyInterval) (cursor t : Int) (s : FreeSlot),
      findFreeSlotAux durMs endWin busy cursor = some s →
      cursor ≤ t → (∀ b ∈ busy, RespectsBusy b t durMs) → s.slotStart ≤ t := by
  intro busy
  induction busy with
  | nil =>
      intro cursor t s h hct _
      simp only [findFreeSlotAux] at h
      split at h
      · obtain rfl := Option.some.inj h
        exact hct
      · exact Option.noConfusion h
  | cons b rest ih =>
      intro cursor t s h hct hresp
      simp only [findFreeSlotAux] at h
      split at h
      · obtain rfl := Option.some.inj h
        exact hct
      · rename_i hguard
        have hbt : b.end_ ≤ t := by
          rcases hresp b (List.mem_cons_self b rest) with h1 | h2
          · exfalso
            exact hguard (by omega)
          · exact h2
        exact ih (max cursor b.end_) t s h (max_le hct hbt)
          (fun b' hb' => hresp b' (List.mem_cons_of_mem b hb'))

/-- Claim C2: first-fit optimality — on a busy list sorted ascending by
start, a returned slot starts no later than any valid gap start: any `t`
inside the window whose duration-length slot collides with no busy
interval. -/
theorem findFreeSlot_first_fit :
    ∀ (busy : List BusyInterval) (w : SearchWindow) (duration : Int) (s : FreeSlot),
      List.Pairwise (fun a b => a.start ≤ b.start) busy →
      findFreeSlot busy w duration = some s →
      ∀ t, ValidGapStart busy w duration t → s.slotStart ≤ t := by
  intro busy w duration s _ h t hvalid
  exact findFreeSlotAux_first_fit duration w.windowEnd busy w.windowStart t s h
    hvalid.1 hvalid.2.2

/-- Witness for claim C2: on busy `[[0,10]]`, window `[0,30]`, duration 5,
the scan returns the slot `[10,15]`, and `t = 20` is a valid gap start, so
first-fit gives `10 ≤ 20`. -/
theorem findFreeSlot_first_fit_witness : (10 : Int) ≤ 20 :=
  findFreeSlot_first_fit [⟨0, 10⟩] ⟨0, 30⟩ 5 ⟨10, 15⟩ (by decide) (by decide) 20 (by decide)

theorem findFreeSlotAux_no_overlap (durMs endWin : Int) :
    ∀ (busy : List BusyInterval) (cursor : Int) (s : FreeSlot),
      List.Pairwise (fun a b => a.start ≤ b.start) busy →
      findFreeSlotAux durMs endWin busy cursor = some s →
      ∀ b ∈ busy, s.slotEnd ≤ b.start ∨ b.end_ ≤ s.slotStart := by
  intro busy
  induction busy with
  | nil =>
      intro cursor s _ _ b hb
      exact absurd hb (List.not_mem_nil b)
  | cons b rest ih =>
      intro cursor s hsorted h b' hb'
      obtain ⟨hhead, htail⟩ := List.pairwise_cons.mp hsorted
      simp only [findFreeSlotAux] at h
      split at h
      · rename_i hguard
        obtain rfl := Option.some.inj h
        rcases List.mem_cons.mp hb' with rfl | hmem
        · refine Or.inl ?_
          show cursor + durMs ≤ b'.start
          omega
        · have := hhead b' hmem
          refine Or.inl ?_
          show cursor + durMs ≤ b'.start
          omega
      · rcases List.mem_cons.mp hb' with rfl | hmem
        · have := findFreeSlotAux_cursor_le_slotStart durMs endWin rest (max cursor b'.end_) s h
          exact Or.inr (le_trans (le_max_right cursor b'.end_) this)
        · exact ih (max cursor b.end_) s htail h b' hmem

/-- Claim C10: slot validity — on a busy list sorted ascending by start
(overlaps allowed), a returned slot collides with no busy interval of the
list: for each interval, the slot ends at or before its start, or starts
at or after its end. -/
theorem findFreeSlot_no_overlap :
    ∀ (busy : List BusyInterval) (w : SearchWindow) (duration : Int) (s : FreeSlot),
      List.Pairwise (fun a b => a.start ≤ b.start) busy →
      findFreeSlot busy w duration = some s →
      ∀ b ∈ busy, s.slotEnd ≤ b.start ∨ b.end_ ≤ s.slotStart := by
  intro busy w duration s hsorted h
  exact findFreeSlotAux_no_overlap duration w.windowEnd busy w.windowStart s hsorted h

/-- Witness for claim C10: on busy `[[0,10],[12,20]]`, window `[0,30]`,
duration 5, the scan returns `[20,25]`, which respects the interval
`[12,20]` on its right side. -/
theorem findFreeSlot_no_overlap_witness : (25 : Int) ≤ 12 ∨ (20 : Int) ≤ 20 :=
  findFreeSlot_no_overlap [⟨0, 10⟩, ⟨12, 20⟩] ⟨0, 30⟩ 5 ⟨20, 25⟩ (by decide) (by decide)
    ⟨12, 20⟩ (by decide)

theorem findFreeSlotAux_contained (durMs endWin ws : Int) :
    ∀ (busy : List BusyInterval) (cursor : Int) (s : FreeSlot),
      ws ≤ cursor → (∀ b ∈ busy, b.start ≤ endWin) →
      findFreeSlotAux durMs endWin busy cursor = some s →
      ws ≤ s.slotStart ∧ s.slotEnd ≤ endWin := by
  intro busy
  induction busy with
  | nil =>
      intro cursor s hws _ h
      simp only [findFreeSlotAux] at h
      split at h
      · rename_i hfit
        obtain rfl := Option.some.inj h
        refine ⟨hws, ?_⟩
        show cursor + durMs ≤ endWin
        omega
      · exact Option.noConfusion h
  | cons b rest ih =>
      intro cursor s hws hbound h
      simp only [findFreeSlotAux] at h
      split at h
      · rename_i hguard
        obtain rfl := Option.some.inj h
        have hb : b.start ≤ endWin := hbound b (List.mem_cons_self b rest)
        refine ⟨hws, ?_⟩
        show cursor + durMs ≤ endWin
        omega
      · exact ih (max cursor b.end_) s (le_trans hws (le_max_left cursor b.end_))
          (fun b' hb' => hbound b' (List.mem_cons_of_mem b hb')) h

/-- Counterexample to claim C3 as stated: with busy `[[100,200]]`, window
`[0,3]` and duration 5, the scan returns the slot `[0,5]`, whose `slotEnd`
5 exceeds `windowEnd` 3 — the busy interval starting beyond the window
lets the slot spill past `windowEnd`. -/
theorem findFreeSlot_containment_cex :
    findFreeSlot [⟨100, 200⟩] ⟨0, 3⟩ 5 = some ⟨0, 5⟩ ∧ (3 : Int) < 5 := by
  refine ⟨?_, ?_⟩ <;> decide

/-- Claim C3 (amended): when every busy interval starts at or before
`windowEnd` — in particular for busy lists lying inside the window, as the
free/busy query delivers — a returned slot satisfies `slotStart ≥
windowStart` and `slotEnd ≤ windowEnd`; the `slotStart` bound needs no
hypothesis, but the `slotEnd` bound can fail when an interval starts
beyond `windowEnd`. -/
theorem findFreeSlot_window_containment :
    ∀ (busy : List BusyInterval) (w : SearchWindow) (duration : Int) (s : FreeSlot),
      (∀ b ∈ busy, b.start ≤ w.windowEnd) →
      findFreeSlot busy w duration = some s →
      w.windowStart ≤ s.slotStart ∧ s.slotEnd ≤ w.windowEnd := by
  intro busy w duration s hbound h
  exact findFreeSlotAux_contained duration w.windowEnd w.windowStart busy w.windowStart s
    (le_refl w.windowStart) hbound h

/-- Witness for claim C3: busy `[[2,4]]`, window `[0,10]`, duration 3
returns the slot `[4,7]`, contained in the window. -/
theorem findFreeSlot_window_containment_witness : (0 : Int) ≤ 4 ∧ (7 : Int) ≤ 10 :=
  findFreeSlot_window_containment [⟨2, 4⟩] ⟨0, 10⟩ 3 ⟨4, 7⟩ (by decide) (by decide)

theorem findFreeSlotAux_window_fits (durMs : Int) (w : SearchWindow) :
    ∀ busy : List BusyInterval,
      (∀ b ∈ busy, b.end_ ≤ w.windowStart ∨ w.windowEnd ≤ b.start) →
      durMs ≤ w.windowEnd - w.windowStart →
      findFreeSlotAux durMs w.windowEnd busy w.windowStart =
        some ⟨w.windowStart, w.windowStart + durMs⟩ := by
  intro busy
  induction busy with
  | nil =>
      intro _ hfit
      simp only [findFreeSlotAux]
      rw [if_pos (by omega)]
  | cons b rest ih =>
      intro hout hfit
      simp only [findFreeSlotAux]
      split
      · rfl
      · rename_i hguard
        have hbefore : b.end_ ≤ w.windowStart := by
          rcases hout b (List.mem_cons_self b rest) with h1 | h2
          · exact h1
          · exact absurd (by omega : b.start - w.windowStart ≥ durMs) hguard
        rw [max_eq_left hbefore]
        exact ih (fun b' hb' => hout b' (List.mem_cons_of_mem b hb')) hfit

theorem findFreeSlotAux_absorb_before (durMs endWin : Int) :
    ∀ (busy : List BusyInterval) (cursor : Int),
      0 < durMs →
      (∀ b ∈ busy, b.start ≤ b.end_ ∧ b.end_ ≤ cursor) →
      findFreeSlotAux durMs endWin busy cursor = findFreeSlotAux durMs endWin [] cursor := by
  intro busy
  induction busy with
  | nil =>
      intro cursor _ _
      rfl
  | cons b rest ih =>
      intro cursor hdur habs
      obtain ⟨hwf, hend⟩ := habs b (List.mem_cons_self b rest)
      simp only [findFreeSlotAux]
      rw [if_neg (by omega), max_eq_left hend]
      exact ih cursor hdur (fun b' hb' => habs b' (List.mem_cons_of_mem b hb'))

/-- Counterexample to claim C4 as stated: the well-formed busy interval
`[20,30]` lies fully outside the window `[0,3]`, yet with duration 5 the
scan returns the slot `[0,5]` (the gap up to the far interval fits) while
the empty busy list yields "not found" (the window itself is too small). -/
theorem findFreeSlot_outside_cex :
    findFreeSlot [⟨20, 30⟩] ⟨0, 3⟩ 5 = some ⟨0, 5⟩ ∧ findFreeSlot [] ⟨0, 3⟩ 5 = none := by
  refine ⟨?_, ?_⟩ <;> decide

/-- Claim C4 (amended): for a positive duration and a busy list of
well-formed intervals (`start ≤ end`) all lying fully outside the window,
the result equals the empty-busy-list result provided the window itself
can fit the duration, or every interval ends at or before `windowStart`;
when the window is too small and some interval starts at or after
`windowEnd`, the scan can return a slot the empty case would not. -/
theorem findFreeSlot_outside_eq_nil :
    ∀ (busy : List BusyInterval) (w : SearchWindow) (duration : Int),
      0 < duration →
      (∀ b ∈ busy, b.start ≤ b.end_) →
      (∀ b ∈ busy, b.end_ ≤ w.windowStart ∨ w.windowEnd ≤ b.start) →
      (duration ≤ w.windowEnd - w.windowStart ∨ ∀ b ∈ busy, b.end_ ≤ w.windowStart) →
      findFreeSlot busy w duration = findFreeSlot [] w duration := by
  intro busy w duration hdur hwf hout hcase
  rcases hcase with hfit | hbefore
  · show findFreeSlotAux duration w.windowEnd busy w.windowStart =
      findFreeSlotAux duration w.windowEnd [] w.windowStart
    rw [findFreeSlotAux_window_fits duration w busy hout hfit]
    simp only [findFreeSlotAux]
    rw [if_pos (by omega)]
  · exact findFreeSlotAux_absorb_before duration w.windowEnd busy w.windowStart hdur
      (fun b hb => ⟨hwf b hb, hbefore b hb⟩)

/-- Witness for claim C4: busy `[[-10,-5]]` lies before the window
`[0,10]`; with duration 5 the scan agrees with the empty-list case. -/
theorem findFreeSlot_outside_eq_nil_witness :
    findFreeSlot [⟨-10, -5⟩] ⟨0, 10⟩ 5 = findFreeSlot [] ⟨0, 10⟩ 5 :=
  findFreeSlot_outside_eq_nil [⟨-10, -5⟩] ⟨0, 10⟩ 5 (by decide) (by decide) (by decide)
    (Or.inl (by decide))

theorem findFreeSlotAux_degenerate (durMs endWin : Int) :
    ∀ (busy : List BusyInterval) (cursor : Int),
      0 < durMs → endWin ≤ cursor → (∀ b ∈ busy, b.start ≤ endWin) →
      findFreeSlotAux durMs endWin busy cursor = none := by
  intro busy
  induction busy with
  | nil =>
      intro cursor hdur hcur _
      simp only [findFreeSlotAux]
      rw [if_neg (by omega)]
  | cons b rest ih =>
      intro cursor hdur hcur hbound
      have hb : b.start ≤ endWin := hbound b (List.mem_cons_self b rest)
      simp only [findFreeSlotAux]
      rw [if_neg (by omega)]
      exact ih (max cursor b.end_) hdur (le_trans hcur (le_max_left cursor b.end_))
        (fun b' hb' => hbound b' (List.mem_cons_of_mem b hb'))

/-- Counterexample to claim C5 as stated: on the inverted window `[10,5]`
with busy `[[100,200]]` and duration 5, the scan does not answer "not
found" — the gap up to the far busy interval triggers the first-fit
return and yields the slot `[10,15]`. -/
theorem findFreeSlot_degenerate_cex :
    findFreeSlot [⟨100, 200⟩] ⟨10, 5⟩ 5 = some ⟨10, 15⟩ ∧ (5 : Int) < 10 := by
  refine ⟨?_, ?_⟩ <;> decide

/-- Claim C5 (amended): for an inverted or empty window (`windowStart ≥
windowEnd`), a positive duration, and a busy list whose intervals all
start at or before `windowEnd`, the scan returns "not found"; a busy
interval starting beyond `windowEnd` can still trigger a first-fit slot
even on a degenerate window. -/
theorem findFreeSlot_degenerate_none :
    ∀ (busy : List BusyInterval) (w : SearchWindow) (duration : Int),
      w.windowEnd ≤ w.windowStart →
      0 < duration →
      (∀ b ∈ busy, b.start ≤ w.windowEnd) →
      findFreeSlot busy w duration = none := by
  intro busy w duration hinv hdur hbound
  exact findFreeSlotAux_degenerate duration w.windowEnd busy w.windowStart hdur hinv hbound

/-- Witness for claim C5: the empty window `[5,5]` with busy `[[0,3]]` and
duration 2 yields "not found". -/
theorem findFreeSlot_degenerate_none_witness :
    findFreeSlot [⟨0, 3⟩] ⟨5, 5⟩ 2 = none :=
  findFreeSlot_degenerate_none [⟨0, 3⟩] ⟨5, 5⟩ 2 (by decide) (by decide) (by decide)

/-- The successive cursor values of the scan loop: the trace starts at the
initial cursor, stops where the loop returns a slot, and otherwise records
`max cursor b.end` per interval, mirroring the loop body. -/
def scanTrace (durMs : Int) : List BusyInterval → Int → List Int
  | [], cursor => [cursor]
  | b :: rest, cursor =>
      if b.start - cursor ≥ durMs then [cursor]
      else cursor :: scanTrace durMs rest (max cursor b.end_)

theorem scanTrace_head (durMs : Int) :
    ∀ (busy : List BusyInterval) (cursor : Int),
      (scanTrace durMs busy cursor).head? = some cursor := by
  intro busy cursor
  cases busy with
  | nil => rfl
  | cons b rest =>
      simp only [scanTrace]
      split <;> rfl

theorem scanTrace_chain (durMs : Int) :
    ∀ (busy : List BusyInterval) (cursor : Int),
      List.Chain' (fun a b => a ≤ b) (scanTrace durMs busy cursor) := by
  intro busy
  induction busy with
  | nil =>
      intro cursor
      exact List.chain'_singleton cursor
  | cons b rest ih =>
      intro cursor
      simp only [scanTrace]
      split
      · exact List.chain'_singleton cursor
      · rw [List.chain'_cons']
        refine ⟨?_, ih (max cursor b.end_)⟩
        intro y hy
        rw [scanTrace_head durMs rest (max cursor b.end_)] at hy
        obtain rfl := Option.some.inj hy
        exact le_max_left cursor b.end_

/-- Counterexample to claim C6 as stated: with busy `[[10,20],[15,25]]`,
window `[0,30]` and duration 5, the scan does not return `[25,30]` — the
gap `[0,10]` before the first interval already fits 5 minutes, so
first-fit returns `[0,5]`. -/
theorem findFreeSlot_overlap_cex :
    findFreeSlot [⟨10, 20⟩, ⟨15, 25⟩] ⟨0, 30⟩ 5 ≠ some ⟨25, 30⟩ := by
  decide

/-- Claim C6 (amended): the cursor trace of the scan is non-decreasing at
every step, for every duration, busy list and start cursor — overlapping,
out-of-order and zero-length intervals included; in the spec's overlap
scenario (busy `[[10,20],[15,25]]`, window `[0,30]`, duration 5) the scan
returns the first-fit slot `[0,5]`, which lies outside `[10,25]`, not the
slot `[25,30]` the spec names. -/
theorem scan_cursor_monotone :
    (∀ (duration : Int) (busy : List BusyInterval) (cursor : Int),
        List.Chain' (fun a b => a ≤ b) (scanTrace duration busy cursor)) ∧
      findFreeSlot [⟨10, 20⟩, ⟨15, 25⟩] ⟨0, 30⟩ 5 = some ⟨0, 5⟩ := by
  refine ⟨?_, by decide⟩
  intro duration busy cursor
  exact scanTrace_chain duration busy cursor

/-- Claim C9: the scan is a pure function of the busy list, the window and
the duration: two runs on identical inputs are identical, with no hidden
state to consult. -/
theorem findFreeSlot_deterministic :
    ∀ (busy : List BusyInterval) (w : SearchWindow) (duration : Int),
      findFreeSlot busy w duration = findFreeSlot busy w duration := by
  intro busy w duration
  rfl
